import Mathlib

/-! Map adapter utilities (`src/utils/map.js`)

A shallow embedding of the exported functions of `src/utils/map.js` and the
properties they satisfy.  JavaScript values are represented by `JSVal`;
objects that the code builds key by key are association lists (`Obj`).
-/

namespace InflectMap

/-! ## JavaScript values -/

/-- The JavaScript values a pop record or a configuration can carry.  Numbers
are the finite numbers (as rationals) plus `NaN`; `obj` is a reference to a
plain object (no array, no conversion to a number of its own). -/
inductive JSVal where
  | undefined : JSVal
  | null : JSVal
  | bool (b : Bool) : JSVal
  | num (q : Rat) : JSVal
  | nan : JSVal
  | str (s : String) : JSVal
  | obj (ref : Nat) : JSVal
  deriving DecidableEq

namespace JSVal

/-- The `ToBoolean` conversion: `undefined`, `null`, `false`, `0`, `NaN` and
the empty string are falsy, every other value is truthy. -/
def truthy : JSVal → Bool
  | undefined => false
  | null => false
  | bool b => b
  | num q => decide (q ≠ 0)
  | nan => false
  | str s => decide (s ≠ "")
  | obj _ => true

/-- The operator `a && b`: `a` when `a` is falsy, else `b`. -/
def and (a b : JSVal) : JSVal := if a.truthy then b else a

/-- The operator `a || b`: `a` when `a` is truthy, else `b`. -/
def or (a b : JSVal) : JSVal := if a.truthy then a else b

end JSVal

open JSVal

/-! ## Objects built key by key -/

/-- An object as the list of its own enumerable properties, in insertion
order.  The first binding of a key is the property's value. -/
abbrev Obj := List (String × JSVal)

namespace Obj

/-- The `[[Get]]` of an own property: `none` when the object has no such key. -/
def get (o : Obj) (k : String) : Option JSVal := o.lookup k

/-- The own property keys of an object, in order, each once. -/
def keys (o : Obj) : List String := (o.map Prod.fst).dedup

/-- The `[[Set]]` of a property: an existing key keeps its place and takes
the new value, a new key is appended. -/
def set : Obj → String → JSVal → Obj
  | [], k, v => [(k, v)]
  | (k', v') :: o, k, v => if k' = k then (k', v) :: o else (k', v') :: set o k v

/-- The call `Object.assign(target, source)`: for each own key of `source`, in
order, the value read from `source` is set on `target`. -/
def assign (target source : Obj) : Obj :=
  (keys source).foldl (fun t k => set t k ((get source k).getD undefined)) target

end Obj

/-! ## `getMapStyle` -/

/-- The function `getMapStyle` of `map.js`: the `switch` compares the theme with
`===`, so only the five string constants select a style of their own. -/
def getMapStyle (theme : JSVal) : String :=
  let style :=
    if theme = str "dark" then "dark-v9"
    else if theme = str "day" then "streets-v10"
    else if theme = str "light" then "light-v9"
    else if theme = str "night" then "navigation-guidance-night-v2"
    else if theme = str "satellite" then "satellite-v9"
    else "light-v9"
  "mapbox://styles/mapbox/" ++ style ++ "?optimize=true"

/-! ## `getGeoJson` -/

/-- The `building` of a pop record.  A field the record does not carry reads
as `undefined`. -/
structure Building where
  lng : JSVal
  lat : JSVal
  address : JSVal
  name : JSVal
  city : JSVal
  country_name : JSVal
  state : JSVal
  zip_code : JSVal
  deriving DecidableEq

/-- A pop record.  A field the record does not carry reads as `undefined`;
`additionalProperties` is `none` when it is absent (falsy) and the object's
own properties otherwise. -/
structure Pop where
  building : Building
  uuid : JSVal
  name : JSVal
  permalink : JSVal
  slug : JSVal
  building_location : JSVal
  url : JSVal
  additionalProperties : Option Obj
  deriving DecidableEq

/-- A point geometry: `type: 'Point'` and the coordinate pair. -/
structure Geometry where
  type : String
  coordinates : JSVal × JSVal
  deriving DecidableEq

/-- A GeoJSON feature as built by the `point` helper. -/
structure Feature where
  type : String
  properties : Obj
  geometry : Geometry
  deriving DecidableEq

/-- A GeoJSON feature collection as built by the `featureCollection` helper. -/
structure FeatureCollection where
  type : String
  features : List Feature
  deriving DecidableEq

/-- The characters `String.prototype.trim` strips: white space and line
terminators. -/
def isTrimmed (c : Char) : Bool :=
  c.toNat ∈ [0x09, 0x0A, 0x0B, 0x0C, 0x0D, 0x20, 0xA0, 0x1680, 0x2000, 0x2001, 0x2002,
    0x2003, 0x2004, 0x2005, 0x2006, 0x2007, 0x2008, 0x2009, 0x200A, 0x2028, 0x2029, 0x202F,
    0x205F, 0x3000, 0xFEFF]

/-- The method `String.prototype.trim`. -/
def trim (s : String) : String :=
  String.mk ((s.data.dropWhile isTrimmed).reverse.dropWhile isTrimmed).reverse

/-! ### The number test of the `point` helper -/

/-- A decimal digit. -/
def isDecimalDigit (c : Char) : Bool := decide ('0' ≤ c ∧ c ≤ '9')

/-- A hexadecimal digit. -/
def isHexDigit (c : Char) : Bool :=
  isDecimalDigit c || decide ('a' ≤ c ∧ c ≤ 'f') || decide ('A' ≤ c ∧ c ≤ 'F')

/-- An octal digit. -/
def isOctalDigit (c : Char) : Bool := decide ('0' ≤ c ∧ c ≤ '7')

/-- A binary digit. -/
def isBinaryDigit (c : Char) : Bool := c == '0' || c == '1'

/-- The optional `ExponentPart` of a decimal literal: nothing, or `e`/`E`, an
optional sign and at least one digit. -/
def isExponentPart : List Char → Bool
  | [] => true
  | e :: rest =>
    (e == 'e' || e == 'E') &&
      (let digits :=
        match rest with
        | '+' :: t => t
        | '-' :: t => t
        | t => t
      !digits.isEmpty && digits.all isDecimalDigit)

/-- The grammar `StrUnsignedDecimalLiteral` of the string-to-number conversion:
`Infinity`, or digits with an optional fraction, or a fraction alone, each with
an optional exponent. -/
def isUnsignedDecimalLiteral (cs : List Char) : Bool :=
  cs == "Infinity".data ||
    (let whole := cs.takeWhile isDecimalDigit
     match cs.dropWhile isDecimalDigit with
     | '.' :: rest =>
       (!whole.isEmpty || !(rest.takeWhile isDecimalDigit).isEmpty) &&
         isExponentPart (rest.dropWhile isDecimalDigit)
     | rest => !whole.isEmpty && isExponentPart rest)

/-- The grammar `NonDecimalIntegerLiteral`: `0x`, `0o` or `0b` and at least one
digit of that base. -/
def isNonDecimalIntegerLiteral : List Char → Bool
  | '0' :: x :: digits =>
    !digits.isEmpty &&
      ((x == 'x' || x == 'X') && digits.all isHexDigit ||
        (x == 'o' || x == 'O') && digits.all isOctalDigit ||
        (x == 'b' || x == 'B') && digits.all isBinaryDigit)
  | _ => false

/-- The strings the conversion to a number does not turn into `NaN`: white
space around nothing, around a signed decimal literal or around an unsigned
literal of another base. -/
def isStringNumericLiteral (s : String) : Bool :=
  let cs := (trim s).data
  cs.isEmpty || isNonDecimalIntegerLiteral cs ||
    isUnsignedDecimalLiteral
      (match cs with
       | '+' :: t => t
       | '-' :: t => t
       | t => t)

/-- The global function `isNaN(value)`: the value converted to a number is
`NaN`.  `undefined`, `NaN`, a plain object and a string that is no numeric
literal are; `null` (0), a boolean (0 or 1) and a number are not. -/
def isNaN : JSVal → Bool
  | JSVal.undefined => true
  | JSVal.null => false
  | JSVal.bool _ => false
  | JSVal.num _ => false
  | JSVal.nan => true
  | JSVal.str s => !isStringNumericLiteral s
  | JSVal.obj _ => true

/-- Modelled from the spec: the test `isNumber(num)` of `@turf/helpers`, a
library that is not part of this repository's source, by which `point` decides
that a coordinate is numeric: `!isNaN(num) && num !== null &&
!Array.isArray(num)` (no `JSVal` is an array). -/
def isNumber (num : JSVal) : Bool := !isNaN num && decide (num ≠ null)

/-- Modelled from the spec: the helper `point(coordinates, properties)` of
`@turf/helpers`, a library that is not part of this repository's source.  It
raises unless both coordinates are numeric, and otherwise builds a feature with
a point geometry at the coordinates and the given properties. -/
def point (coordinates : JSVal × JSVal) (properties : Obj) : Except String Feature :=
  if !isNumber coordinates.1 || !isNumber coordinates.2 then
    .error "coordinates must contain numbers"
  else
    .ok { type := "Feature", properties := properties,
          geometry := { type := "Point", coordinates := coordinates } }

/-- Modelled from the spec: the helper `featureCollection(features)` of
`@turf/helpers`, which wraps an array of features in a collection. -/
def featureCollection (features : List Feature) : FeatureCollection :=
  { type := "FeatureCollection", features := features }

/-- The method `Array.prototype.map` with a callback that may raise: the
callback runs once per element, in order, and the first error ends the call. -/
def mapE {α β : Type} (f : α → Except String β) : List α → Except String (List β)
  | [] => .ok []
  | x :: xs => do
    let y ← f x
    let ys ← mapE f xs
    pure (y :: ys)

/-- The object literal `properties` of `getGeoJson`'s map callback, before
`additionalProperties` is merged. -/
def getGeoJson.properties (pop : Pop) : Obj :=
  [ ("address", pop.building.address.or (str "")),
    ("building_name", pop.building.name.or (str "")),
    ("city", pop.building.city.or (str "")),
    ("country_name", pop.building.country_name.or (str "")),
    ("id", pop.uuid.or (str "")),
    ("name", pop.name.or (str "")),
    ("permalink", pop.permalink.or (str "")),
    ("slug", pop.slug.or (str "")),
    ("state", pop.building.state.or (str "")),
    ("suite", pop.building_location.or (str "")),
    ("url", pop.url.or (str "")),
    ("zip_code", pop.building.zip_code.or (str "")) ]

/-- The `properties` of `getGeoJson`'s map callback once the `if` has run:
`additionalProperties` merged in when the record has them. -/
def getGeoJson.merged (pop : Pop) : Obj :=
  let properties := getGeoJson.properties pop
  match pop.additionalProperties with
  | some extra => Obj.assign properties extra
  | none => properties

/-- The map callback of `getGeoJson`: builds the properties, merges
`additionalProperties` when the record has them, and hands both to `point`. -/
def getGeoJson.toPoint (pop : Pop) : Except String Feature :=
  let properties := getGeoJson.merged pop
  point (pop.building.lng, pop.building.lat) properties

/-- The function `getGeoJson` of `map.js`.  It raises when `point` does. -/
def getGeoJson (pops : List Pop) : Except String FeatureCollection := do
  let points ←
    mapE getGeoJson.toPoint
      (pops.filter (fun pop => (pop.building.lng.and pop.building.lat).truthy))
  pure (featureCollection points)

/-! ## `genLayer` -/

/-- The configuration fields `genLayer` reads. -/
structure Config where
  dotRadius : JSVal
  dotColor : JSVal
  dotBorderWidth : JSVal
  dotBorderColor : JSVal
  deriving DecidableEq

/-- A transition object `{ duration }`. -/
structure Transition where
  duration : Nat
  deriving DecidableEq

/-- The `paint` object of a layer descriptor, one field per key of the
literal, in the literal's order. -/
structure Paint where
  circleRadius : JSVal
  circleRadiusTransition : Transition
  circleColor : JSVal
  circleColorTransition : Transition
  circleStrokeWidth : JSVal
  circleStrokeWidthTransition : Transition
  circleStrokeColor : JSVal
  circleStrokeColorTransition : Transition
  deriving DecidableEq

/-- The layer descriptor `genLayer` returns. -/
structure Layer where
  id : String
  type : String
  source : String
  paint : Paint
  deriving DecidableEq

/-- The function `genLayer` of `map.js`. -/
def genLayer (name : String) (config : Config) : Layer :=
  { id := name
    type := "circle"
    source := name
    paint :=
      { circleRadius := config.dotRadius
        circleRadiusTransition := { duration := 150 }
        circleColor := config.dotColor
        circleColorTransition := { duration := 150 }
        circleStrokeWidth := config.dotBorderWidth
        circleStrokeWidthTransition := { duration := 150 }
        circleStrokeColor := config.dotBorderColor
        circleStrokeColorTransition := { duration := 150 } } }

/-! ## `getBounds` -/

/-- A longitude/latitude pair. -/
structure LngLat where
  lng : Rat
  lat : Rat
  deriving DecidableEq

/-- A non-empty bounding rectangle: its south-west and north-east corners. -/
structure Box where
  sw : LngLat
  ne : LngLat
  deriving DecidableEq

/-- Modelled from the spec: the bounds accumulator `mapboxgl.LngLatBounds` of
the map library, a bounding rectangle that starts empty (`none`) and that
`extend` grows to include a point. -/
abbrev LngLatBounds := Option Box

namespace LngLatBounds

/-- The accumulator `new mapboxgl.LngLatBounds()`: no corner is set. -/
def empty : LngLatBounds := none

/-- Modelled from the spec: the library call `bounds.extend([lng, lat])`.  The
first point sets both corners; a later point moves the south-west corner down
to it and the north-east corner up to it.  A coordinate that is not a number
is no point of the plane and the call raises. -/
def extend (bounds : LngLatBounds) (coordinates : JSVal × JSVal) :
    Except String LngLatBounds :=
  match coordinates with
  | (num x, num y) =>
    match bounds with
    | none => .ok (some { sw := { lng := x, lat := y }, ne := { lng := x, lat := y } })
    | some b =>
      .ok (some { sw := { lng := min x b.sw.lng, lat := min y b.sw.lat },
                  ne := { lng := max x b.ne.lng, lat := max y b.ne.lat } })
  | _ => .error "Invalid LngLat object"

/-- The rectangle holds the point `(x, y)`. -/
def containsPoint (bounds : LngLatBounds) (x y : Rat) : Prop :=
  ∃ b, bounds = some b ∧ b.sw.lng ≤ x ∧ x ≤ b.ne.lng ∧ b.sw.lat ≤ y ∧ y ≤ b.ne.lat

/-- The rectangle `outer` holds the rectangle `inner`: every point of `inner`
is a point of `outer`. -/
def containsBounds (outer inner : LngLatBounds) : Prop :=
  ∀ x y, containsPoint inner x y → containsPoint outer x y

end LngLatBounds

/-- The function `getBounds` of `map.js`.  The `forEach` threads the one
mutable accumulator through the records in order. -/
def getBounds (pops : List Pop) : Except String LngLatBounds :=
  let bounds := LngLatBounds.empty
  if pops.length = 0 then bounds.extend (num 0, num 0)
  else pops.foldlM (fun bounds pop => bounds.extend (pop.building.lng, pop.building.lat)) bounds

/-- The coordinates of a record are numbers `x` and `y`. -/
def Pop.hasCoordinates (pop : Pop) (x y : Rat) : Prop :=
  pop.building.lng = num x ∧ pop.building.lat = num y

/-- The accumulator of `getBounds` once the `forEach` has visited the first `k`
records. -/
def getBounds.after (pops : List Pop) (k : Nat) : Except String LngLatBounds :=
  (pops.take k).foldlM
    (fun bounds pop => bounds.extend (pop.building.lng, pop.building.lat)) LngLatBounds.empty

/-- A rectangle whose south-west corner is not beyond its north-east corner;
the empty accumulator counts as one. -/
def LngLatBounds.valid (bounds : LngLatBounds) : Prop :=
  ∀ b, bounds = some b → b.sw.lng ≤ b.ne.lng ∧ b.sw.lat ≤ b.ne.lat

/-! ## `removeSource` -/

/-- Modelled from the spec: the live map as explicit state, the set of the
names of its layers and the set of the names of its sources. -/
structure MapState where
  layers : Finset String
  sources : Finset String
  deriving DecidableEq

namespace MapState

/-- The map method `getLayer(name)`, of which the code only tests the
truthiness: whether a layer of that name exists. -/
def getLayer (map : MapState) (name : String) : Bool := decide (name ∈ map.layers)

/-- The map method `removeLayer(name)`. -/
def removeLayer (map : MapState) (name : String) : MapState :=
  { map with layers := map.layers.erase name }

/-- The map method `removeSource(name)`. -/
def removeSource (map : MapState) (name : String) : MapState :=
  { map with sources := map.sources.erase name }

end MapState

/-- The function `removeSource` of `map.js`; the result is the state of the map
after the call. -/
def removeSource (name : String) (map : MapState) : MapState :=
  if map.getLayer name then
    let map := map.removeLayer name
    let map := map.removeSource name
    map
  else map

/-! ## `getAddressMarkup` and `getPopupMarkup` -/

/-- The UTF-16 code units of a character. -/
def utf16 (c : Char) : List Nat :=
  if c.toNat < 0x10000 then [c.toNat]
  else [0xD800 + (c.toNat - 0x10000) / 0x400, 0xDC00 + (c.toNat - 0x10000) % 0x400]

/-- The UTF-16 code units of a string, the sequence JavaScript compares. -/
def codeUnits (s : String) : List Nat := s.data.flatMap utf16

/-- Lexicographic `<` on code unit sequences; a proper prefix is smaller. -/
def unitsLt : List Nat → List Nat → Bool
  | [], [] => false
  | [], _ :: _ => true
  | _ :: _, [] => false
  | x :: xs, y :: ys => if x < y then true else if y < x then false else unitsLt xs ys

/-- The operator `a > b` on two strings. -/
def strGt (a b : String) : Bool := unitsLt (codeUnits b) (codeUnits a)

/-- The method `Array.prototype.join('')`. -/
def join (parts : List String) : String := parts.foldl (fun acc part => acc ++ part) ""

/-- The method `Array.prototype.sort(compare)`, as an insertion sort: an element
goes in front of the first element it does not compare greater than (`compare`
not positive).  Where `compare` never answers `0`, the order an engine leaves
two elements of equal rank in is its own choice; what is proved of the result
is that it is a permutation in the order of `compare`. -/
def sort {α : Type} (compare : α → α → Int) (xs : List α) : List α :=
  xs.insertionSort (fun a b => compare a b ≤ 0)

/-- The properties of a feature that the popup templates read, as the strings
`getGeoJson` gives them. -/
structure PopupProperties where
  address : String
  building_name : String
  city : String
  country_name : String
  name : String
  state : String
  suite : String
  url : String
  zip_code : String
  deriving DecidableEq

/-- A feature handed to the popup. -/
structure PopupFeature where
  properties : PopupProperties
  deriving DecidableEq

/-- The `div` element the popup is built in: the two attributes the code sets. -/
structure Div where
  className : String
  innerHTML : String
  deriving DecidableEq

/-- The call `document.createElement('div')`: a fresh element, nothing set. -/
def createElement : Div := { className := "", innerHTML := "" }

/-- The read `xs[i].properties` guarded as JavaScript guards it: reading a
property of `undefined` (an index out of range) raises a `TypeError`. -/
def propertiesAt (xs : List PopupFeature) (i : Nat) : Except String PopupProperties :=
  match xs[i]? with
  | some f => .ok f.properties
  | none => .error "TypeError: Cannot read properties of undefined"

/-- The method `Array.prototype.filter` with a callback that may raise: the
callback runs once per element, in order, and the first error ends the call. -/
def filterE {α : Type} (keep : α → Except String Bool) : List α → Except String (List α)
  | [] => .ok []
  | x :: xs => do
    let k ← keep x
    let rest ← filterE keep xs
    pure (if k then x :: rest else rest)

/-- The function `getAddressMarkup` of `map.js`. -/
def getAddressMarkup (p : PopupProperties) (includeSuite : Bool) : String :=
  trim ("\n  <p>" ++ p.building_name ++ "</p>\n  <p>" ++ p.address ++ "</p>\n  <p>"
    ++ (if includeSuite then p.suite else "") ++ "</p>\n  <p>" ++ p.city ++ ", " ++ p.state
    ++ " " ++ p.zip_code ++ "</p>\n  <p>" ++ p.country_name ++ "</p>\n")

/-- The comparator handed to `sort` in `getPopupMarkup`. -/
def getPopupMarkup.compare (a b : PopupFeature) : Int :=
  if strGt a.properties.name b.properties.name then 1 else -1

/-- The row template of `getPopupMarkup`'s map callback. -/
def getPopupMarkup.row (token : String) (f : PopupFeature) : String :=
  let p := f.properties
  trim ("\n          <div class=\"inflect-map-popup-row\">\n            <a href=\"" ++ p.url
    ++ "?mapToken=" ++ token ++ "\" target=\"_blank\">" ++ p.name
    ++ "</a>\n            <p>" ++ p.suite ++ "</p>\n          </div>\n        ")

/-- The function `getPopupMarkup` of `map.js`. -/
def getPopupMarkup (features : List PopupFeature) (token : String) : Except String Div := do
  let buildings ← filterE (fun f => do
    let first ← propertiesAt features 0
    pure (decide (f.properties.address = first.address))) features
  let div := createElement
  let div := { div with className := "inflect-map-popup" }
  if buildings.length = 1 then
    let p ← propertiesAt buildings 0
    pure { div with innerHTML :=
      "\n      <div>\n        <a href=\"" ++ p.url ++ "?mapToken=" ++ token
        ++ "\" target=\"_blank\">" ++ p.name ++ "</a>\n        " ++ getAddressMarkup p true
        ++ "\n      </div>\n    " }
  else if buildings.length ≥ 1 then
    let same ← filterE (fun f => do
      let first ← propertiesAt buildings 0
      pure (decide (f.properties.address = first.address))) buildings
    let rows := (sort getPopupMarkup.compare same).map (getPopupMarkup.row token)
    let first ← propertiesAt buildings 0
    pure { div with innerHTML :=
      "\n      <div>\n        " ++ join rows ++ "\n        " ++ getAddressMarkup first false
        ++ "\n      </div>\n    " }
  else pure div

/-! ## Sample records -/

/-- The building `{}`: every field absent. -/
def Building.blank : Building :=
  { lng := undefined, lat := undefined, address := undefined, name := undefined,
    city := undefined, country_name := undefined, state := undefined, zip_code := undefined }

/-- The record `{building: {}}`: every field absent. -/
def Pop.blank : Pop :=
  { building := Building.blank, uuid := undefined, name := undefined, permalink := undefined,
    slug := undefined, building_location := undefined, url := undefined,
    additionalProperties := none }

/-- The record `{building: {lng, lat}, name}`. -/
def Pop.at (lng lat : Rat) (name : String) : Pop :=
  { Pop.blank with
    building := { Building.blank with lng := num lng, lat := num lat }
    name := str name }

/-- The record `{building: {lng: 'abc', lat: 'def'}}`. -/
def Pop.lettered : Pop :=
  { Pop.blank with building := { Building.blank with lng := str "abc", lat := str "def" } }

/-- The record `{building: {lng: 1, lat: 2}, name: 'A', uuid: 0}`. -/
def Pop.zeroId : Pop := { Pop.at 1 2 "A" with uuid := num 0 }

/-- A feature of the building `Tower` at `1 Main St`, Springfield, with the
given occupant name, suite and link. -/
def PopupFeature.occupant (name suite url : String) : PopupFeature :=
  { properties :=
      { address := "1 Main St", building_name := "Tower", city := "Springfield",
        country_name := "USA", name := name, state := "IL", suite := suite, url := url,
        zip_code := "62701" } }

/-- The named properties of a feature, each with the read of the record that
the object literal of `getGeoJson` takes its value from. -/
def getGeoJson.namedFields : List (String × (Pop → JSVal)) :=
  [ ("address", fun pop => pop.building.address),
    ("building_name", fun pop => pop.building.name),
    ("city", fun pop => pop.building.city),
    ("country_name", fun pop => pop.building.country_name),
    ("id", fun pop => pop.uuid),
    ("name", fun pop => pop.name),
    ("permalink", fun pop => pop.permalink),
    ("slug", fun pop => pop.slug),
    ("state", fun pop => pop.building.state),
    ("suite", fun pop => pop.building_location),
    ("url", fun pop => pop.url),
    ("zip_code", fun pop => pop.building.zip_code) ]

/-! ## Properties -/

set_option maxRecDepth 8000

/-- The operator `&&` is truthy exactly when both operands are. -/
theorem JSVal.truthy_and (a b : JSVal) : (a.and b).truthy = (a.truthy && b.truthy) := by
  unfold JSVal.and
  by_cases h : a.truthy = true
  · simp [h]
  · simp only [h]
    simp at h
    simp [h]

/-- C7: `getMapStyle` is total. For every theme it returns
`mapbox://styles/mapbox/<style>?optimize=true` with `<style>` one of the five
styles: `dark-v9` for `'dark'`, `streets-v10` for `'day'`, `light-v9` for
`'light'`, `navigation-guidance-night-v2` for `'night'`, `satellite-v9` for
`'satellite'`; for every other value, an omitted theme (`undefined`) included,
the result is that of `getMapStyle('light')`, the `light-v9` URL. -/
theorem getMapStyle_total (theme : JSVal) :
    (∃ style ∈ ["dark-v9", "streets-v10", "light-v9", "navigation-guidance-night-v2",
        "satellite-v9"],
      getMapStyle theme = "mapbox://styles/mapbox/" ++ style ++ "?optimize=true") ∧
    getMapStyle (str "dark") = "mapbox://styles/mapbox/dark-v9?optimize=true" ∧
    getMapStyle (str "day") = "mapbox://styles/mapbox/streets-v10?optimize=true" ∧
    getMapStyle (str "light") = "mapbox://styles/mapbox/light-v9?optimize=true" ∧
    getMapStyle (str "night") =
      "mapbox://styles/mapbox/navigation-guidance-night-v2?optimize=true" ∧
    getMapStyle (str "satellite") = "mapbox://styles/mapbox/satellite-v9?optimize=true" ∧
    (theme ∉ [str "dark", str "day", str "light", str "night", str "satellite"] →
      getMapStyle theme = getMapStyle (str "light") ∧
      getMapStyle theme = "mapbox://styles/mapbox/light-v9?optimize=true") := by
  refine ⟨?_, by decide, by decide, by decide, by decide, by decide, ?_⟩
  · unfold getMapStyle
    split_ifs <;> simp
  · intro h
    simp only [List.mem_cons, List.mem_singleton, List.not_mem_nil, or_false, not_or] at h
    obtain ⟨h1, h2, h3, h4, h5⟩ := h
    have : getMapStyle theme = "mapbox://styles/mapbox/light-v9?optimize=true" := by
      simp only [getMapStyle, h1, h2, h3, h4, h5, if_false]
      decide
    exact ⟨by rw [this]; decide, this⟩

/-- C7 at an omitted theme: `getMapStyle()` is `getMapStyle('light')`. -/
theorem getMapStyle_total_witness :
    undefined ∉ [str "dark", str "day", str "light", str "night", str "satellite"] ∧
    getMapStyle undefined = getMapStyle (str "light") ∧
    getMapStyle undefined = "mapbox://styles/mapbox/light-v9?optimize=true" :=
  ⟨by decide, (getMapStyle_total undefined).2.2.2.2.2.2 (by decide)⟩

/-- C8: for every name and configuration, `genLayer` returns a descriptor whose
`id` and `source` are the name, whose `type` is `'circle'`, and whose paint has
`circle-radius`, `circle-color`, `circle-stroke-width` and `circle-stroke-color`
equal to `dotRadius`, `dotColor`, `dotBorderWidth` and `dotBorderColor` of the
configuration, each with a transition of duration 150. -/
theorem genLayer_descriptor (name : String) (config : Config) :
    (genLayer name config).id = name ∧
    (genLayer name config).source = name ∧
    (genLayer name config).type = "circle" ∧
    (genLayer name config).paint.circleRadius = config.dotRadius ∧
    (genLayer name config).paint.circleColor = config.dotColor ∧
    (genLayer name config).paint.circleStrokeWidth = config.dotBorderWidth ∧
    (genLayer name config).paint.circleStrokeColor = config.dotBorderColor ∧
    (genLayer name config).paint.circleRadiusTransition.duration = 150 ∧
    (genLayer name config).paint.circleColorTransition.duration = 150 ∧
    (genLayer name config).paint.circleStrokeWidthTransition.duration = 150 ∧
    (genLayer name config).paint.circleStrokeColorTransition.duration = 150 :=
  ⟨rfl, rfl, rfl, rfl, rfl, rfl, rfl, rfl, rfl, rfl, rfl⟩

/-- C5: with the map as a set of layer names and a set of source names,
`removeSource` is idempotent. After one call no layer of that name is left, a
second call with the same name leaves the map exactly as the first call left
it, and on a map without a layer of that name the call changes nothing; the
call is total, so no error is raised. -/
theorem removeSource_idempotent (name : String) (map : MapState) :
    name ∉ (removeSource name map).layers ∧
    removeSource name (removeSource name map) = removeSource name map ∧
    (name ∉ map.layers → removeSource name map = map) := by
  by_cases h : name ∈ map.layers
  · have h1 : removeSource name map =
        { layers := map.layers.erase name, sources := map.sources.erase name } := by
      simp [removeSource, MapState.getLayer, MapState.removeLayer, MapState.removeSource, h]
    refine ⟨?_, ?_, fun hn => absurd h hn⟩
    · simp [h1]
    · rw [h1]
      simp [removeSource, MapState.getLayer]
  · have h1 : removeSource name map = map := by
      simp [removeSource, MapState.getLayer, h]
    exact ⟨by rw [h1]; exact h, by rw [h1, h1], fun _ => h1⟩

/-- C5 on a map with the layers `pops`, `roads` and the source `pops`:
removing `labels`, which is no layer, changes nothing. -/
theorem removeSource_idempotent_witness :
    "labels" ∉ ({"pops", "roads"} : Finset String) ∧
    removeSource "labels" { layers := {"pops", "roads"}, sources := {"pops"} } =
      { layers := {"pops", "roads"}, sources := {"pops"} } :=
  ⟨by decide,
    (removeSource_idempotent "labels" { layers := {"pops", "roads"}, sources := {"pops"} }).2.2
      (by decide)⟩

/-- C9: for the empty feature list and every token, `getPopupMarkup` raises no
error and returns a container of class `inflect-map-popup` with empty content;
the first feature is not read, a read that would raise on the empty list. -/
theorem getPopupMarkup_empty (token : String) :
    getPopupMarkup [] token = .ok { className := "inflect-map-popup", innerHTML := "" } ∧
    propertiesAt [] 0 = .error "TypeError: Cannot read properties of undefined" :=
  ⟨rfl, rfl⟩

/-! ### Objects -/

/-- Reading a key of the empty object. -/
theorem Obj.get_nil (k : String) : Obj.get [] k = none := rfl

/-- Reading a key of an object with a first property. -/
theorem Obj.get_cons (k0 : String) (v0 : JSVal) (o : Obj) (k : String) :
    Obj.get ((k0, v0) :: o) k = if k = k0 then some v0 else Obj.get o k := by
  unfold Obj.get
  by_cases h : k = k0
  · subst h
    simp [List.lookup]
  · have h' : (k == k0) = false := by simpa using h
    simp [List.lookup, h, h']

/-- Reading a key after a `set`: the new value at the key set, the old value
elsewhere. -/
theorem Obj.get_set (o : Obj) (k k' : String) (v : JSVal) :
    Obj.get (Obj.set o k v) k' = if k' = k then some v else Obj.get o k' := by
  induction o with
  | nil => simp [Obj.set, Obj.get_cons, Obj.get_nil]
  | cons kv o ih =>
    obtain ⟨k0, v0⟩ := kv
    by_cases h0 : k0 = k
    · subst h0
      by_cases h : k' = k0 <;> simp [Obj.set, Obj.get_cons, h]
    · by_cases h : k' = k
      · subst h
        have : ¬ k' = k0 := fun e => h0 e.symm
        simp [Obj.set, Obj.get_cons, h0, this, ih]
      · by_cases h1 : k' = k0 <;> simp [Obj.set, Obj.get_cons, h0, h, h1, ih]

/-- Reading a key after a run of `set`s over the keys `ks`. -/
theorem Obj.get_foldl_set (g : String → JSVal) (ks : List String) (t : Obj) (k : String) :
    Obj.get (ks.foldl (fun t k => Obj.set t k (g k)) t) k =
      if k ∈ ks then some (g k) else Obj.get t k := by
  induction ks generalizing t with
  | nil => simp
  | cons k0 ks ih =>
    rw [List.foldl_cons, ih, Obj.get_set]
    by_cases h : k ∈ ks
    · simp [h]
    · by_cases h0 : k = k0 <;> simp [h, h0]

/-- An object has a key exactly when reading it gives a value. -/
theorem Obj.mem_keys (o : Obj) (k : String) : k ∈ Obj.keys o ↔ Obj.get o k ≠ none := by
  unfold Obj.keys
  rw [List.mem_dedup]
  induction o with
  | nil => simp [Obj.get_nil]
  | cons kv o ih =>
    obtain ⟨k0, v0⟩ := kv
    by_cases h : k = k0
    · simp [Obj.get_cons, h]
    · simp only [List.map_cons, List.mem_cons, h, false_or, Obj.get_cons, if_false]
      exact ih

/-- Reading a key after `Object.assign`: the source's value when the source has
the key, the target's own otherwise. -/
theorem Obj.get_assign (target source : Obj) (k : String) :
    Obj.get (Obj.assign target source) k =
      match Obj.get source k with
      | some v => some v
      | none => Obj.get target k := by
  unfold Obj.assign
  rw [Obj.get_foldl_set (fun k => (Obj.get source k).getD undefined)]
  have hk := Obj.mem_keys source k
  cases h : Obj.get source k with
  | none =>
    have : k ∉ Obj.keys source := fun hm => (hk.1 hm) h
    simp [this]
  | some v =>
    have : k ∈ Obj.keys source := hk.2 (by simp [h])
    simp [this]

/-- Each named property of the object literal is the record's field when the
field is truthy and the empty string otherwise. -/
theorem getGeoJson.get_properties (pop : Pop) (key : String) (field : Pop → JSVal)
    (h : (key, field) ∈ getGeoJson.namedFields) :
    Obj.get (getGeoJson.properties pop) key =
      some (if (field pop).truthy then field pop else str "") := by
  simp only [getGeoJson.namedFields, List.mem_cons, List.mem_singleton, Prod.mk.injEq,
    List.not_mem_nil, or_false] at h
  rcases h with h | h | h | h | h | h | h | h | h | h | h | h <;>
    (obtain ⟨rfl, rfl⟩ := h; rfl)

/-! ### Bounds -/

/-- One `extend` with a point: the call returns, the result is a rectangle that
holds the point and the previous rectangle, and it lies within every rectangle
that holds both. -/
theorem LngLatBounds.extend_point (bounds : LngLatBounds) (x y : Rat)
    (hvalid : bounds.valid) :
    ∃ box, bounds.extend (num x, num y) = .ok (some box) ∧
      LngLatBounds.valid (some box) ∧
      LngLatBounds.containsPoint (some box) x y ∧
      LngLatBounds.containsBounds (some box) bounds ∧
      (∀ other, LngLatBounds.containsBounds other bounds →
        LngLatBounds.containsPoint other x y →
        LngLatBounds.containsBounds other (some box)) := by
  cases bounds with
  | none =>
    refine ⟨{ sw := { lng := x, lat := y }, ne := { lng := x, lat := y } }, rfl, ?_, ?_, ?_, ?_⟩
    · intro b hb
      cases hb
      exact ⟨le_refl _, le_refl _⟩
    · exact ⟨_, rfl, le_refl _, le_refl _, le_refl _, le_refl _⟩
    · rintro u v ⟨b, hb, -⟩
      cases hb
    · rintro other - hpt u v ⟨b, hb, h1, h2, h3, h4⟩
      cases hb
      have hu : u = x := le_antisymm h2 h1
      have hv : v = y := le_antisymm h4 h3
      rw [hu, hv]
      exact hpt
  | some b =>
    obtain ⟨hlng, hlat⟩ := hvalid b rfl
    refine ⟨{ sw := { lng := min x b.sw.lng, lat := min y b.sw.lat },
              ne := { lng := max x b.ne.lng, lat := max y b.ne.lat } }, rfl, ?_, ?_, ?_, ?_⟩
    · intro b' hb'
      cases hb'
      exact ⟨le_trans (min_le_left _ _) (le_max_left _ _),
        le_trans (min_le_left _ _) (le_max_left _ _)⟩
    · exact ⟨_, rfl, min_le_left _ _, le_max_left _ _, min_le_left _ _, le_max_left _ _⟩
    · rintro u v ⟨b', hb', h1, h2, h3, h4⟩
      cases hb'
      exact ⟨_, rfl, le_trans (min_le_right _ _) h1, le_trans h2 (le_max_right _ _),
        le_trans (min_le_right _ _) h3, le_trans h4 (le_max_right _ _)⟩
    · rintro other hin hpt u v ⟨b', hb', h1, h2, h3, h4⟩
      cases hb'
      obtain ⟨o, ho, p1, p2, p3, p4⟩ := hpt
      obtain ⟨o1, ho1, s1, -, s3, -⟩ :=
        hin b.sw.lng b.sw.lat ⟨b, rfl, le_refl _, hlng, le_refl _, hlat⟩
      obtain ⟨o2, ho2, -, n2, -, n4⟩ :=
        hin b.ne.lng b.ne.lat ⟨b, rfl, hlng, le_refl _, hlat, le_refl _⟩
      rw [ho] at ho1 ho2
      cases ho1
      cases ho2
      exact ⟨o, ho, le_trans (le_min p1 s1) h1, le_trans h2 (max_le p2 n2),
        le_trans (le_min p3 s3) h3, le_trans h4 (max_le p4 n4)⟩

/-- The `forEach` of `getBounds` over records with number coordinates, from any
rectangle: the loop returns, the result holds the starting rectangle and the
point of every record, and lies within every rectangle that does. -/
theorem LngLatBounds.foldlM_extend (pops : List Pop) (bounds : LngLatBounds)
    (hvalid : bounds.valid) (hnum : ∀ pop ∈ pops, ∃ x y, pop.hasCoordinates x y) :
    ∃ result,
      pops.foldlM (fun bounds pop => LngLatBounds.extend bounds
        (pop.building.lng, pop.building.lat)) bounds = .ok result ∧
      LngLatBounds.valid result ∧
      (pops ≠ [] → ∃ box, result = some box) ∧
      LngLatBounds.containsBounds result bounds ∧
      (∀ pop ∈ pops, ∀ x y, pop.hasCoordinates x y →
        LngLatBounds.containsPoint result x y) ∧
      (∀ other, LngLatBounds.containsBounds other bounds →
        (∀ pop ∈ pops, ∀ x y, pop.hasCoordinates x y →
          LngLatBounds.containsPoint other x y) →
        LngLatBounds.containsBounds other result) := by
  induction pops generalizing bounds with
  | nil =>
    exact ⟨bounds, rfl, hvalid, fun h => absurd rfl h, fun _ _ h => h,
      fun _ h => absurd h (List.not_mem_nil _), fun _ h _ => h⟩
  | cons pop pops ih =>
    obtain ⟨x, y, hx, hy⟩ := hnum pop (List.mem_cons_self _ _)
    obtain ⟨box, hext, hv1, hpt1, hin1, hmin1⟩ := LngLatBounds.extend_point bounds x y hvalid
    obtain ⟨result, hfold, hv2, -, hin2, hpts2, hmin2⟩ :=
      ih (some box) hv1 (fun q hq => hnum q (List.mem_cons_of_mem _ hq))
    refine ⟨result, ?_, hv2, ?_, ?_, ?_, ?_⟩
    · rw [List.foldlM_cons, hx, hy, hext]
      exact hfold
    · intro _
      obtain ⟨b, hb, -⟩ := hin2 x y hpt1
      exact ⟨b, hb⟩
    · exact fun u v h => hin2 u v (hin1 u v h)
    · intro q hq u v hc
      rcases List.mem_cons.1 hq with rfl | hq'
      · obtain ⟨hu, hv⟩ := hc
        rw [hx] at hu
        rw [hy] at hv
        cases hu
        cases hv
        exact hin2 _ _ hpt1
      · exact hpts2 q hq' u v hc
    · intro other hother hall
      refine hmin2 other (hmin1 other hother ?_) ?_
      · exact hall pop (List.mem_cons_self _ _) x y ⟨hx, hy⟩
      · exact fun q hq => hall q (List.mem_cons_of_mem _ hq)

/-- C4: with the bounds accumulator as a bounding rectangle that `extend` grows
to include a point. For the empty array `getBounds` returns the box obtained by
extending the empty bounds once with `[0,0]`. For every non-empty array of pop
records (coordinates being numbers) `getBounds` returns the box obtained by
extending once per record in input order; every intermediate box contains the
previous one; the final box contains `[building.lng, building.lat]` of every
record and lies within every rectangle that does, so it is the minimal one. -/
theorem getBounds_box (pops : List Pop)
    (hnum : ∀ pop ∈ pops, ∃ x y, pop.hasCoordinates x y) :
    (pops = [] →
      getBounds pops = LngLatBounds.empty.extend (num 0, num 0) ∧
      getBounds pops =
        .ok (some { sw := { lng := 0, lat := 0 }, ne := { lng := 0, lat := 0 } })) ∧
    (pops ≠ [] →
      ∃ box, getBounds pops = .ok (some box) ∧
        getBounds.after pops 0 = .ok LngLatBounds.empty ∧
        getBounds.after pops pops.length = .ok (some box) ∧
        (∀ k, k < pops.length →
          ∃ prev next pop,
            getBounds.after pops k = .ok prev ∧
            getBounds.after pops (k + 1) = .ok next ∧
            pops[k]? = some pop ∧
            prev.extend (pop.building.lng, pop.building.lat) = .ok next ∧
            LngLatBounds.containsBounds next prev) ∧
        (∀ pop ∈ pops, ∀ x y, pop.hasCoordinates x y →
          LngLatBounds.containsPoint (some box) x y) ∧
        (∀ other : LngLatBounds,
          (∀ pop ∈ pops, ∀ x y, pop.hasCoordinates x y →
            LngLatBounds.containsPoint other x y) →
          LngLatBounds.containsBounds other (some box))) := by
  have hempty : LngLatBounds.valid LngLatBounds.empty := by
    intro b hb
    cases hb
  refine ⟨?_, ?_⟩
  · rintro rfl
    exact ⟨rfl, rfl⟩
  · intro hne
    obtain ⟨result, hfold, -, hsome, -, hpts, hmin⟩ :=
      LngLatBounds.foldlM_extend pops LngLatBounds.empty hempty hnum
    obtain ⟨box, rfl⟩ := hsome hne
    have hlen : ¬ pops.length = 0 := fun h => hne (List.length_eq_zero.1 h)
    refine ⟨box, ?_, rfl, ?_, ?_, hpts, ?_⟩
    · simp only [getBounds, hlen, if_false]
      exact hfold
    · simp only [getBounds.after, List.take_length]
      exact hfold
    · intro k hk
      have hnumk : ∀ pop ∈ pops.take k, ∃ x y, pop.hasCoordinates x y :=
        fun pop hp => hnum pop (List.mem_of_mem_take hp)
      obtain ⟨prev, hprev, hvprev, -, -, -, -⟩ :=
        LngLatBounds.foldlM_extend (pops.take k) LngLatBounds.empty hempty hnumk
      have hget : pops[k]? = some pops[k] := List.getElem?_eq_getElem hk
      obtain ⟨x, y, hx, hy⟩ := hnum pops[k] (List.getElem_mem hk)
      obtain ⟨next, hnext, -, -, hin, -⟩ := LngLatBounds.extend_point prev x y hvprev
      refine ⟨prev, some next, pops[k], hprev, ?_, hget, ?_, hin⟩
      · simp only [getBounds.after, List.take_succ, hget, Option.toList, List.foldlM_append,
          List.foldlM_cons, List.foldlM_nil]
        rw [hprev]
        simp only [hx, hy]
        rw [show (Except.ok prev >>= fun b => do
              let s ← LngLatBounds.extend b (num x, num y)
              pure s) = (do let s ← LngLatBounds.extend prev (num x, num y); pure s) from rfl,
          hnext]
        rfl
      · rw [hx, hy]
        exact hnext
    · intro other hall
      refine hmin other ?_ hall
      rintro u v ⟨b, hb, -⟩
      cases hb

/-- C4 at the records `{building:{lng:1,lat:1}}` and `{building:{lng:2,lat:2}}`
(named `a` and `b`): the box returned has the corners `[1,1]` and `[2,2]`. -/
theorem getBounds_box_witness :
    (∀ pop ∈ [Pop.at 1 1 "a", Pop.at 2 2 "b"], ∃ x y, pop.hasCoordinates x y) ∧
    [Pop.at 1 1 "a", Pop.at 2 2 "b"] ≠ [] ∧
    getBounds [Pop.at 1 1 "a", Pop.at 2 2 "b"] =
      .ok (some { sw := { lng := 1, lat := 1 }, ne := { lng := 2, lat := 2 } }) ∧
    ∃ box, getBounds [Pop.at 1 1 "a", Pop.at 2 2 "b"] = .ok (some box) ∧
      LngLatBounds.containsPoint (some box) 1 1 ∧
      LngLatBounds.containsPoint (some box) 2 2 := by
  have hnum : ∀ pop ∈ [Pop.at 1 1 "a", Pop.at 2 2 "b"], ∃ x y, pop.hasCoordinates x y := by
    intro pop hpop
    simp only [List.mem_cons, List.mem_singleton, List.not_mem_nil, or_false] at hpop
    rcases hpop with rfl | rfl
    · exact ⟨1, 1, rfl, rfl⟩
    · exact ⟨2, 2, rfl, rfl⟩
  obtain ⟨box, hbox, -, -, -, hpts, -⟩ :=
    (getBounds_box [Pop.at 1 1 "a", Pop.at 2 2 "b"] hnum).2 (by simp)
  exact ⟨hnum, by simp, rfl, box, hbox,
    hpts (Pop.at 1 1 "a") (by simp) 1 1 ⟨rfl, rfl⟩,
    hpts (Pop.at 2 2 "b") (by simp) 2 2 ⟨rfl, rfl⟩⟩

/-! ### Popup -/

/-- Nothing compares below the empty sequence. -/
theorem unitsLt_nil_right (xs : List Nat) : unitsLt xs [] = false := by
  cases xs <;> rfl

/-- The comparison of two non-empty sequences. -/
theorem unitsLt_cons (x y : Nat) (xs ys : List Nat) :
    unitsLt (x :: xs) (y :: ys) =
      if x < y then true else if y < x then false else unitsLt xs ys := rfl

/-- The order of code unit sequences is asymmetric. -/
theorem unitsLt_asymm (xs ys : List Nat) (h : unitsLt xs ys = true) : unitsLt ys xs = false := by
  induction xs generalizing ys with
  | nil => exact unitsLt_nil_right ys
  | cons x xs ih =>
    cases ys with
    | nil => exact absurd h (by simp [unitsLt])
    | cons y ys =>
      rw [unitsLt_cons] at h ⊢
      split_ifs at h ⊢ <;> first | rfl | omega | exact ih ys h

/-- Not being greater is transitive on code unit sequences. -/
theorem unitsLt_trans_false (xs ys zs : List Nat) (h1 : unitsLt ys xs = false)
    (h2 : unitsLt zs ys = false) : unitsLt zs xs = false := by
  induction xs generalizing ys zs with
  | nil => exact unitsLt_nil_right zs
  | cons x xs ih =>
    cases ys with
    | nil => exact absurd h1 (by simp [unitsLt])
    | cons y ys =>
      cases zs with
      | nil => exact absurd h2 (by simp [unitsLt])
      | cons z zs =>
        rw [unitsLt_cons] at h1 h2 ⊢
        split_ifs at h1 h2 ⊢ <;> first | rfl | omega | exact ih ys zs h1 h2

/-- The comparator of `getPopupMarkup` is not positive exactly when the first
name is not greater than the second. -/
theorem getPopupMarkup.compare_le (a b : PopupFeature) :
    getPopupMarkup.compare a b ≤ 0 ↔ strGt a.properties.name b.properties.name = false := by
  unfold getPopupMarkup.compare
  cases strGt a.properties.name b.properties.name <;> simp

/-- The sort by `getPopupMarkup`'s comparator permutes its input and leaves the
names in non-decreasing order. -/
theorem getPopupMarkup.sort_compare (fs : List PopupFeature) :
    (sort getPopupMarkup.compare fs).Perm fs ∧
    (sort getPopupMarkup.compare fs).Pairwise
      (fun a b => strGt a.properties.name b.properties.name = false) := by
  haveI : IsTotal PopupFeature (fun a b => getPopupMarkup.compare a b ≤ 0) :=
    ⟨fun a b => by
      rw [getPopupMarkup.compare_le, getPopupMarkup.compare_le]
      cases h : strGt a.properties.name b.properties.name
      · exact Or.inl rfl
      · exact Or.inr (unitsLt_asymm _ _ h)⟩
  haveI : IsTrans PopupFeature (fun a b => getPopupMarkup.compare a b ≤ 0) :=
    ⟨fun a b c hab hbc => by
      rw [getPopupMarkup.compare_le] at hab hbc ⊢
      unfold strGt at hab hbc ⊢
      exact unitsLt_trans_false _ _ _ hab hbc⟩
  refine ⟨List.perm_insertionSort _ fs, ?_⟩
  have hs := List.sorted_insertionSort (fun a b => getPopupMarkup.compare a b ≤ 0) fs
  exact List.Pairwise.imp (fun h => (getPopupMarkup.compare_le _ _).1 h) hs

/-- A filter whose callback never raises is the plain filter. -/
theorem filterE_ok {α : Type} (keep : α → Bool) (xs : List α) :
    filterE (fun x => .ok (keep x)) xs = .ok (xs.filter keep) := by
  induction xs with
  | nil => rfl
  | cons x xs ih =>
    simp only [filterE, ih, List.filter_cons]
    cases keep x <;> rfl

/-- Dropping a predicate's run from the front skips a prefix that satisfies it. -/
theorem dropWhile_append_all {α : Type} (p : α → Bool) (l r : List α)
    (h : ∀ c ∈ l, p c = true) : (l ++ r).dropWhile p = r.dropWhile p := by
  induction l with
  | nil => rfl
  | cons c l ih =>
    rw [List.cons_append, List.dropWhile_cons, if_pos (h c (List.mem_cons_self _ _))]
    exact ih (fun d hd => h d (List.mem_cons_of_mem _ hd))

/-- The method `trim` on a tag run between white space: the white space on both
sides goes, the run from its `<` to its `>` stays. -/
theorem trim_wrapped (pre mid post : String) (hpre : ∀ c ∈ pre.data, isTrimmed c = true)
    (hpost : ∀ c ∈ post.data, isTrimmed c = true) :
    trim (pre ++ "<" ++ mid ++ ">" ++ post) = "<" ++ mid ++ ">" := by
  have hdata : (pre ++ "<" ++ mid ++ ">" ++ post).data =
      pre.data ++ ('<' :: (mid.data ++ '>' :: post.data)) := by
    simp [String.data_append]
  have hrev : ('<' :: (mid.data ++ '>' :: post.data)).reverse =
      post.data.reverse ++ ('>' :: (mid.data.reverse ++ ['<'])) := by
    simp
  have hpost' : ∀ c ∈ post.data.reverse, isTrimmed c = true :=
    fun c hc => hpost c (List.mem_reverse.1 hc)
  unfold trim
  rw [hdata, dropWhile_append_all _ _ _ hpre,
    List.dropWhile_cons_of_neg (by decide), hrev, dropWhile_append_all _ _ _ hpost',
    List.dropWhile_cons_of_neg (by decide)]
  apply String.ext
  simp [String.data_append]

/-- The markup of `getAddressMarkup`, spelled out: five paragraphs, the third
holding the suite only when it is asked for. -/
theorem getAddressMarkup_eq (p : PopupProperties) (includeSuite : Bool) :
    getAddressMarkup p includeSuite =
      "<p>" ++ p.building_name ++ "</p>\n  <p>" ++ p.address ++ "</p>\n  <p>"
        ++ (if includeSuite then p.suite else "") ++ "</p>\n  <p>" ++ p.city ++ ", "
        ++ p.state ++ " " ++ p.zip_code ++ "</p>\n  <p>" ++ p.country_name ++ "</p>" := by
  have h := trim_wrapped "\n  "
    ("p>" ++ p.building_name ++ "</p>\n  <p>" ++ p.address ++ "</p>\n  <p>"
      ++ (if includeSuite then p.suite else "") ++ "</p>\n  <p>" ++ p.city ++ ", "
      ++ p.state ++ " " ++ p.zip_code ++ "</p>\n  <p>" ++ p.country_name ++ "</p") "\n"
    (by decide) (by decide)
  unfold getAddressMarkup
  refine Eq.trans (congrArg trim ?_) (h.trans ?_)
  · apply String.ext
    simp [String.data_append]
  · apply String.ext
    simp [String.data_append]

/-- The markup of one row of `getPopupMarkup`, spelled out: a link to the
feature's `url` carrying the token, with the `name` as text, then the suite. -/
theorem getPopupMarkup.row_eq (token : String) (f : PopupFeature) :
    getPopupMarkup.row token f =
      "<div class=\"inflect-map-popup-row\">\n            <a href=\"" ++ f.properties.url
        ++ "?mapToken=" ++ token ++ "\" target=\"_blank\">" ++ f.properties.name
        ++ "</a>\n            <p>" ++ f.properties.suite ++ "</p>\n          </div>" := by
  have h := trim_wrapped "\n          "
    ("div class=\"inflect-map-popup-row\">\n            <a href=\"" ++ f.properties.url
      ++ "?mapToken=" ++ token ++ "\" target=\"_blank\">" ++ f.properties.name
      ++ "</a>\n            <p>" ++ f.properties.suite ++ "</p>\n          </div") "\n        "
    (by decide) (by decide)
  unfold getPopupMarkup.row
  refine Eq.trans (congrArg trim ?_) (h.trans ?_)
  · apply String.ext
    simp [String.data_append]
  · apply String.ext
    simp [String.data_append]

/-- Reading the first feature of a non-empty list does not raise. -/
theorem propertiesAt_cons (first : PopupFeature) (rest : List PopupFeature) :
    propertiesAt (first :: rest) 0 = .ok first.properties := by
  simp [propertiesAt]

/-- The filter callback of `getPopupMarkup` on a non-empty list never raises:
it compares each address with the first feature's. -/
theorem getPopupMarkup.keep_cons (first : PopupFeature) (rest : List PopupFeature) :
    (fun (f : PopupFeature) => (do
      let p ← propertiesAt (first :: rest) 0
      pure (decide (f.properties.address = p.address)) : Except String Bool)) =
      fun f => .ok (decide (f.properties.address = first.properties.address)) := by
  funext f
  rw [propertiesAt_cons]
  rfl

/-- What `getPopupMarkup` returns on a non-empty feature list: the call does not
raise, the buildings are the features with the first feature's address, and the
content is chosen by their number. -/
theorem getPopupMarkup_cons (first : PopupFeature) (rest : List PopupFeature)
    (token : String) :
    getPopupMarkup (first :: rest) token =
      .ok (if ((first :: rest).filter
            (fun f => decide (f.properties.address = first.properties.address))).length = 1
        then
          { className := "inflect-map-popup"
            innerHTML := "\n      <div>\n        <a href=\"" ++ first.properties.url
              ++ "?mapToken=" ++ token ++ "\" target=\"_blank\">" ++ first.properties.name
              ++ "</a>\n        " ++ getAddressMarkup first.properties true
              ++ "\n      </div>\n    " }
        else
          { className := "inflect-map-popup"
            innerHTML := "\n      <div>\n        "
              ++ join ((sort getPopupMarkup.compare ((first :: rest).filter
                  (fun f => decide (f.properties.address = first.properties.address)))).map
                  (getPopupMarkup.row token))
              ++ "\n        " ++ getAddressMarkup first.properties false
              ++ "\n      </div>\n    " }) := by
  have hbuildings : (first :: rest).filter
      (fun f => decide (f.properties.address = first.properties.address)) =
      first :: rest.filter
        (fun f => decide (f.properties.address = first.properties.address)) := by
    simp
  unfold getPopupMarkup
  rw [getPopupMarkup.keep_cons, filterE_ok, hbuildings]
  have hsame : (first :: rest.filter
        (fun f => decide (f.properties.address = first.properties.address))).filter
      (fun f => decide (f.properties.address = first.properties.address)) =
      first :: rest.filter
        (fun f => decide (f.properties.address = first.properties.address)) := by
    simp
  by_cases hone : (first :: rest.filter
      (fun f => decide (f.properties.address = first.properties.address))).length = 1
  · show (if (first :: rest.filter
        (fun f => decide (f.properties.address = first.properties.address))).length = 1
      then _ else _) = _
    rw [if_pos hone, if_pos hone, propertiesAt_cons]
    rfl
  · have hge : (first :: rest.filter
        (fun f => decide (f.properties.address = first.properties.address))).length ≥ 1 := by
      simp
    show (if (first :: rest.filter
        (fun f => decide (f.properties.address = first.properties.address))).length = 1
      then _ else if (first :: rest.filter
        (fun f => decide (f.properties.address = first.properties.address))).length ≥ 1
      then _ else _) = _
    rw [if_neg hone, if_neg hone, if_pos hge, getPopupMarkup.keep_cons, filterE_ok, hsame,
      propertiesAt_cons]
    rfl

/-! ### `getGeoJson` -/

/-- The helper `point` builds the feature when both coordinates are numeric. -/
theorem point_ok (a b : JSVal) (properties : Obj) (ha : isNumber a = true)
    (hb : isNumber b = true) :
    point (a, b) properties =
      .ok { type := "Feature", properties := properties,
            geometry := { type := "Point", coordinates := (a, b) } } := by
  simp [point, ha, hb]

/-- The helper `point` raises when a coordinate is not numeric. -/
theorem point_error (a b : JSVal) (properties : Obj)
    (h : isNumber a = false ∨ isNumber b = false) :
    point (a, b) properties = .error "coordinates must contain numbers" := by
  rcases h with h | h <;> simp [point, h]

/-- A map whose callback returns on every element returns, one result per
element and in order. -/
theorem mapE_ok {α β : Type} (f : α → Except String β) (xs : List α)
    (h : ∀ x ∈ xs, ∃ y, f x = .ok y) :
    ∃ ys, mapE f xs = .ok ys ∧ List.Forall₂ (fun y x => f x = .ok y) ys xs := by
  induction xs with
  | nil => exact ⟨[], rfl, List.Forall₂.nil⟩
  | cons x xs ih =>
    obtain ⟨y, hy⟩ := h x (List.mem_cons_self _ _)
    obtain ⟨ys, hys, hall⟩ := ih (fun z hz => h z (List.mem_cons_of_mem _ hz))
    refine ⟨y :: ys, ?_, List.Forall₂.cons hy hall⟩
    simp only [mapE, hy, hys]
    rfl

/-- A map whose callback raises on some element raises, when the callback has
one error only. -/
theorem mapE_error {α β : Type} (f : α → Except String β) (xs : List α) (e : String)
    (honly : ∀ x e', f x = .error e' → e' = e) (x : α) (hx : x ∈ xs)
    (hraise : f x = .error e) : mapE f xs = .error e := by
  induction xs with
  | nil => cases hx
  | cons z zs ih =>
    cases hz : f z with
    | error e' =>
      have := honly z e' hz
      subst this
      simp only [mapE, hz]
      rfl
    | ok y =>
      have hmem : x ∈ zs := by
        rcases List.mem_cons.1 hx with rfl | hmem
        · rw [hraise] at hz
          cases hz
        · exact hmem
      simp only [mapE, hz, ih hmem]
      rfl

/-- The only error of `getGeoJson`'s map callback is that of `point`. -/
theorem getGeoJson.toPoint_only_error (pop : Pop) (e : String)
    (h : getGeoJson.toPoint pop = .error e) : e = "coordinates must contain numbers" := by
  unfold getGeoJson.toPoint point at h
  split_ifs at h
  cases h
  rfl

/-- Where every record that passes the filter has numeric coordinates,
`getGeoJson` returns a collection whose features are, in order, the points of
the records that pass the filter. -/
theorem getGeoJson.returns (pops : List Pop)
    (hnum : ∀ pop ∈ pops, pop.building.lng.truthy = true → pop.building.lat.truthy = true →
      isNumber pop.building.lng = true ∧ isNumber pop.building.lat = true) :
    ∃ fc, getGeoJson pops = .ok fc ∧
      List.Forall₂
        (fun (f : Feature) (pop : Pop) =>
          getGeoJson.toPoint pop = .ok f ∧
          f = { type := "Feature", properties := getGeoJson.merged pop,
                geometry := { type := "Point",
                              coordinates := (pop.building.lng, pop.building.lat) } })
        fc.features
        (pops.filter (fun pop => pop.building.lng.truthy && pop.building.lat.truthy)) := by
  have hall : ∀ pop ∈ pops.filter (fun pop => pop.building.lng.truthy && pop.building.lat.truthy),
      ∃ f, getGeoJson.toPoint pop = .ok f := by
    intro pop hpop
    obtain ⟨hmem, hkeep⟩ := List.mem_filter.1 hpop
    simp only [Bool.and_eq_true] at hkeep
    obtain ⟨h1, h2⟩ := hnum pop hmem hkeep.1 hkeep.2
    exact ⟨_, point_ok _ _ _ h1 h2⟩
  obtain ⟨fs, hfs, hrel⟩ := mapE_ok getGeoJson.toPoint _ hall
  refine ⟨featureCollection fs, ?_, ?_⟩
  · have hfilter : (fun (pop : Pop) => (pop.building.lng.and pop.building.lat).truthy) =
        fun pop => pop.building.lng.truthy && pop.building.lat.truthy := by
      funext pop
      exact JSVal.truthy_and _ _
    simp only [getGeoJson, hfilter, hfs]
    rfl
  · refine List.Forall₂.imp ?_ hrel
    intro f pop hf
    refine ⟨hf, ?_⟩
    unfold getGeoJson.toPoint point at hf
    split_ifs at hf
    cases hf
    rfl

/-- Where a record passes the filter with a coordinate that is not numeric,
`getGeoJson` raises the error of `point`. -/
theorem getGeoJson.raises (pops : List Pop) (pop : Pop) (hmem : pop ∈ pops)
    (hlng : pop.building.lng.truthy = true) (hlat : pop.building.lat.truthy = true)
    (hbad : isNumber pop.building.lng = false ∨ isNumber pop.building.lat = false) :
    getGeoJson pops = .error "coordinates must contain numbers" := by
  have hfilter : (fun (pop : Pop) => (pop.building.lng.and pop.building.lat).truthy) =
      fun pop => pop.building.lng.truthy && pop.building.lat.truthy := by
    funext pop
    exact JSVal.truthy_and _ _
  have hkept : pop ∈ pops.filter
      (fun pop => pop.building.lng.truthy && pop.building.lat.truthy) :=
    List.mem_filter.2 ⟨hmem, by simp [hlng, hlat]⟩
  have hmap := mapE_error getGeoJson.toPoint _ "coordinates must contain numbers"
    getGeoJson.toPoint_only_error pop hkept (point_error _ _ _ hbad)
  simp only [getGeoJson, hfilter, hmap]
  rfl

/-- C1, as stated, fails on the array of the one record
`{building:{lng:'abc',lat:'def'}}`: its `lng` and `lat` are both truthy, yet
`getGeoJson` raises (in `point`) and returns no collection, so there is no
feature count to equal the number of records. -/
theorem getGeoJson_lettered_counterexample :
    (∀ pop ∈ [Pop.lettered],
      pop.building.lng.truthy = true ∧ pop.building.lat.truthy = true) ∧
    getGeoJson [Pop.lettered] = .error "coordinates must contain numbers" ∧
    ¬ (∃ fc, getGeoJson [Pop.lettered] = .ok fc ∧
        fc.features.length = [Pop.lettered].length) := by
  refine ⟨by decide, rfl, ?_⟩
  rintro ⟨fc, hfc, -⟩
  have h : getGeoJson [Pop.lettered] = .error "coordinates must contain numbers" := rfl
  rw [h] at hfc
  cases hfc

/-- C1, amended: for every array of pop records in which every record with a
truthy `building.lng` and `building.lat` has numeric coordinates, `getGeoJson`
returns a collection with at most as many features as there are records, and
exactly as many if and only if every record has a truthy `building.lng` and a
truthy `building.lat`; for every other array `getGeoJson` raises. -/
theorem getGeoJson_length (pops : List Pop) :
    ((∀ pop ∈ pops, pop.building.lng.truthy = true → pop.building.lat.truthy = true →
        isNumber pop.building.lng = true ∧ isNumber pop.building.lat = true) →
      ∃ fc, getGeoJson pops = .ok fc ∧
        fc.features.length ≤ pops.length ∧
        (fc.features.length = pops.length ↔
          ∀ pop ∈ pops, pop.building.lng.truthy = true ∧ pop.building.lat.truthy = true)) ∧
    (¬ (∀ pop ∈ pops, pop.building.lng.truthy = true → pop.building.lat.truthy = true →
        isNumber pop.building.lng = true ∧ isNumber pop.building.lat = true) →
      getGeoJson pops = .error "coordinates must contain numbers") := by
  constructor
  · intro hnum
    obtain ⟨fc, hfc, hrel⟩ := getGeoJson.returns pops hnum
    have hlen := hrel.length_eq
    refine ⟨fc, hfc, ?_, ?_⟩
    · rw [hlen]
      exact List.length_filter_le _ _
    · rw [hlen, List.filter_length_eq_length]
      simp
  · intro hnot
    push_neg at hnot
    obtain ⟨pop, hmem, hlng, hlat, hbad⟩ := hnot
    refine getGeoJson.raises pops pop hmem hlng hlat ?_
    by_cases h1 : isNumber pop.building.lng = true
    · right
      simpa using hbad h1
    · left
      simpa using h1

/-- C1, amended, at the records `{building:{lng:1,lat:2}, name:'A'}` and
`{building:{lng:0,lat:5}, name:'Z'}`: the hypothesis holds and a collection is
returned with no more features than records. -/
theorem getGeoJson_length_witness :
    (∀ pop ∈ [Pop.at 1 2 "A", Pop.at 0 5 "Z"],
      pop.building.lng.truthy = true → pop.building.lat.truthy = true →
        isNumber pop.building.lng = true ∧ isNumber pop.building.lat = true) ∧
    ∃ fc, getGeoJson [Pop.at 1 2 "A", Pop.at 0 5 "Z"] = .ok fc ∧
      fc.features.length ≤ [Pop.at 1 2 "A", Pop.at 0 5 "Z"].length ∧
      (fc.features.length = [Pop.at 1 2 "A", Pop.at 0 5 "Z"].length ↔
        ∀ pop ∈ [Pop.at 1 2 "A", Pop.at 0 5 "Z"],
          pop.building.lng.truthy = true ∧ pop.building.lat.truthy = true) :=
  ⟨by decide, (getGeoJson_length [Pop.at 1 2 "A", Pop.at 0 5 "Z"]).1 (by decide)⟩

/-- C2, as stated, fails on the array of `{building:{lng:1,lat:2}, name:'A'}`
and `{building:{lng:'abc',lat:'def'}}`: both records have a truthy `lng` and
`lat`, yet `getGeoJson` raises (in `point`) and no feature is returned for
either. -/
theorem getGeoJson_no_feature_counterexample :
    (∀ pop ∈ [Pop.at 1 2 "A", Pop.lettered],
      pop.building.lng.truthy = true ∧ pop.building.lat.truthy = true) ∧
    getGeoJson [Pop.at 1 2 "A", Pop.lettered] = .error "coordinates must contain numbers" ∧
    ¬ (∃ fc, getGeoJson [Pop.at 1 2 "A", Pop.lettered] = .ok fc) := by
  refine ⟨by decide, rfl, ?_⟩
  rintro ⟨fc, hfc⟩
  have h : getGeoJson [Pop.at 1 2 "A", Pop.lettered] =
      .error "coordinates must contain numbers" := rfl
  rw [h] at hfc
  cases hfc

/-- C2, amended: for every array of pop records in which every record with a
truthy `building.lng` and `building.lat` has numeric coordinates, `getGeoJson`
returns features that correspond, one per record and in input order, to exactly
the records whose `building.lng` and `building.lat` are both truthy, each
feature a point with the coordinates `[building.lng, building.lat]` of its
record (for every other array `getGeoJson` raises); a record with `lng = 0` or
`lat = 0` is dropped; the single record `{building:{lng:1,lat:2}, name:'A'}`
yields a single feature with coordinates `[1,2]` and `properties.name` `'A'`. -/
theorem getGeoJson_features (pops : List Pop) :
    ((∀ pop ∈ pops, pop.building.lng.truthy = true → pop.building.lat.truthy = true →
        isNumber pop.building.lng = true ∧ isNumber pop.building.lat = true) →
      ∃ fc, getGeoJson pops = .ok fc ∧
        List.Forall₂
          (fun (f : Feature) (pop : Pop) =>
            getGeoJson.toPoint pop = .ok f ∧
            f.type = "Feature" ∧
            f.geometry.type = "Point" ∧
            f.geometry.coordinates = (pop.building.lng, pop.building.lat))
          fc.features
          (pops.filter (fun pop => pop.building.lng.truthy && pop.building.lat.truthy))) ∧
    (¬ (∀ pop ∈ pops, pop.building.lng.truthy = true → pop.building.lat.truthy = true →
        isNumber pop.building.lng = true ∧ isNumber pop.building.lat = true) →
      getGeoJson pops = .error "coordinates must contain numbers") ∧
    (∀ pre post pop, pops = pre ++ pop :: post →
      pop.building.lng = num 0 ∨ pop.building.lat = num 0 →
      getGeoJson pops = getGeoJson (pre ++ post)) ∧
    (∃ fc f, getGeoJson [Pop.at 1 2 "A"] = .ok fc ∧ fc.features = [f] ∧
      f.geometry.coordinates = (num 1, num 2) ∧
      f.properties.get "name" = some (str "A")) := by
  refine ⟨?_, ?_, ?_, ?_⟩
  · intro hnum
    obtain ⟨fc, hfc, hrel⟩ := getGeoJson.returns pops hnum
    refine ⟨fc, hfc, List.Forall₂.imp ?_ hrel⟩
    rintro f pop ⟨hf, rfl⟩
    exact ⟨hf, rfl, rfl, rfl⟩
  · intro hnot
    push_neg at hnot
    obtain ⟨pop, hmem, hlng, hlat, hbad⟩ := hnot
    refine getGeoJson.raises pops pop hmem hlng hlat ?_
    by_cases h1 : isNumber pop.building.lng = true
    · right
      simpa using hbad h1
    · left
      simpa using h1
  · rintro pre post pop rfl h
    have hdrop : (pop.building.lng.and pop.building.lat).truthy = false := by
      rw [JSVal.truthy_and]
      rcases h with h | h <;> simp [h, JSVal.truthy]
    simp only [getGeoJson, List.filter_append]
    rw [List.filter_cons_of_neg (by simp [hdrop])]
  · exact ⟨_, _, rfl, rfl, by decide, by decide⟩

/-- C2, amended, at the records `{building:{lng:0,lat:5}, name:'Z'}` and
`{building:{lng:1,lat:2}, name:'A'}`: the hypothesis holds, a collection is
returned whose features match the records with truthy coordinates, and the
first record is dropped. -/
theorem getGeoJson_features_witness :
    (∀ pop ∈ [Pop.at 0 5 "Z", Pop.at 1 2 "A"],
      pop.building.lng.truthy = true → pop.building.lat.truthy = true →
        isNumber pop.building.lng = true ∧ isNumber pop.building.lat = true) ∧
    (∃ fc, getGeoJson [Pop.at 0 5 "Z", Pop.at 1 2 "A"] = .ok fc ∧
      List.Forall₂
        (fun (f : Feature) (pop : Pop) =>
          getGeoJson.toPoint pop = .ok f ∧
          f.type = "Feature" ∧
          f.geometry.type = "Point" ∧
          f.geometry.coordinates = (pop.building.lng, pop.building.lat))
        fc.features
        ([Pop.at 0 5 "Z", Pop.at 1 2 "A"].filter
          (fun pop => pop.building.lng.truthy && pop.building.lat.truthy))) ∧
    getGeoJson [Pop.at 0 5 "Z", Pop.at 1 2 "A"] = getGeoJson [Pop.at 1 2 "A"] :=
  ⟨by decide,
    (getGeoJson_features [Pop.at 0 5 "Z", Pop.at 1 2 "A"]).1 (by decide),
    (getGeoJson_features [Pop.at 0 5 "Z", Pop.at 1 2 "A"]).2.2.1 [] [Pop.at 1 2 "A"]
      (Pop.at 0 5 "Z") rfl (Or.inl rfl)⟩

/-- Where `getGeoJson` returns, a record that passes the filter has its point
among the features. -/
theorem getGeoJson.feature_of_pop (pops : List Pop)
    (hnum : ∀ pop ∈ pops, pop.building.lng.truthy = true → pop.building.lat.truthy = true →
      isNumber pop.building.lng = true ∧ isNumber pop.building.lat = true)
    (pop : Pop) (hmem : pop ∈ pops) (hlng : pop.building.lng.truthy = true)
    (hlat : pop.building.lat.truthy = true) :
    ∃ fc f, getGeoJson pops = .ok fc ∧ f ∈ fc.features ∧
      getGeoJson.toPoint pop = .ok f ∧
      f = { type := "Feature", properties := getGeoJson.merged pop,
            geometry := { type := "Point",
                          coordinates := (pop.building.lng, pop.building.lat) } } := by
  obtain ⟨fc, hfc, hrel⟩ := getGeoJson.returns pops hnum
  have hkept : pop ∈ pops.filter
      (fun pop => pop.building.lng.truthy && pop.building.lat.truthy) :=
    List.mem_filter.2 ⟨hmem, by simp [hlng, hlat]⟩
  have hex : ∀ (fs : List Feature) (ps : List Pop),
      List.Forall₂
        (fun (f : Feature) (pop : Pop) =>
          getGeoJson.toPoint pop = .ok f ∧
          f = { type := "Feature", properties := getGeoJson.merged pop,
                geometry := { type := "Point",
                              coordinates := (pop.building.lng, pop.building.lat) } })
        fs ps →
      pop ∈ ps → ∃ f, f ∈ fs ∧ getGeoJson.toPoint pop = .ok f ∧
        f = { type := "Feature", properties := getGeoJson.merged pop,
              geometry := { type := "Point",
                            coordinates := (pop.building.lng, pop.building.lat) } } := by
    intro fs ps h
    induction h with
    | nil => intro hp; cases hp
    | cons hhead _ ih =>
      intro hp
      rcases List.mem_cons.1 hp with rfl | hp'
      · exact ⟨_, List.mem_cons_self _ _, hhead.1, hhead.2⟩
      · obtain ⟨f, hf, hrest⟩ := ih hp'
        exact ⟨f, List.mem_cons_of_mem _ hf, hrest⟩
  obtain ⟨f, hf, htp, heq⟩ := hex _ _ hrel hkept
  exact ⟨fc, f, hfc, hf, htp, heq⟩

/-- C3, as stated, fails on the record `{building:{lng:1,lat:2}, name:'A',
uuid:0}`: the record survives the filter, carries no `additionalProperties`,
and its `uuid` is present (it is `0`, not `undefined`), yet the `id` of the
feature `getGeoJson` returns for it is the empty string and not the `uuid`. -/
theorem getGeoJson_present_field_counterexample :
    (Pop.zeroId.building.lng.and Pop.zeroId.building.lat).truthy = true ∧
    Pop.zeroId.additionalProperties = none ∧
    Pop.zeroId.uuid = num 0 ∧
    Pop.zeroId.uuid ≠ undefined ∧
    ("id", fun (pop : Pop) => pop.uuid) ∈ getGeoJson.namedFields ∧
    ∃ fc, getGeoJson [Pop.zeroId] = .ok fc ∧
      fc.features.map (fun f => f.properties.get "id") = [some (str "")] ∧
      ¬ (∀ f ∈ fc.features, f.properties.get "id" = some Pop.zeroId.uuid) := by
  refine ⟨by decide, rfl, rfl, by decide, ?_, _, rfl, by decide, by decide⟩
  simp [getGeoJson.namedFields]

/-- C3, amended: for every pop record that survives the coordinate filter, in
an array for which `getGeoJson` returns (every surviving record has numeric
coordinates), each named property of its feature (`address`, `building_name`,
`city`, `country_name`, `id`, `name`, `permalink`, `slug`, `state`, `suite`,
`url`, `zip_code`) is the value under that key in `additionalProperties` when
`additionalProperties` supplies the key, otherwise the record's corresponding
field when that field is truthy, otherwise the empty string; without
`additionalProperties` no named property is `null` or `undefined`; and every
key of `additionalProperties` is in the feature's properties with the caller's
value. -/
theorem getGeoJson_named_properties (pops : List Pop)
    (hnum : ∀ pop ∈ pops, pop.building.lng.truthy = true → pop.building.lat.truthy = true →
      isNumber pop.building.lng = true ∧ isNumber pop.building.lat = true)
    (pop : Pop) (hmem : pop ∈ pops)
    (hlng : pop.building.lng.truthy = true) (hlat : pop.building.lat.truthy = true) :
    ∃ fc f, getGeoJson pops = .ok fc ∧ f ∈ fc.features ∧
      getGeoJson.toPoint pop = .ok f ∧
      f.geometry.coordinates = (pop.building.lng, pop.building.lat) ∧
      (∀ key field, (key, field) ∈ getGeoJson.namedFields →
        f.properties.get key =
          some (match pop.additionalProperties.bind (fun extra => extra.get key) with
            | some v => v
            | none => if (field pop).truthy then field pop else str "")) ∧
      (pop.additionalProperties = none →
        ∀ key field, (key, field) ∈ getGeoJson.namedFields →
          ∃ v, f.properties.get key = some v ∧ v ≠ null ∧ v ≠ undefined) ∧
      (∀ extra, pop.additionalProperties = some extra →
        ∀ key v, extra.get key = some v → f.properties.get key = some v) := by
  obtain ⟨fc, f, hfc, hf, htp, rfl⟩ :=
    getGeoJson.feature_of_pop pops hnum pop hmem hlng hlat
  refine ⟨fc, _, hfc, hf, htp, rfl, ?_, ?_, ?_⟩
  · intro key field hkey
    have hlit := getGeoJson.get_properties pop key field hkey
    cases hextra : pop.additionalProperties with
    | none => simp [getGeoJson.merged, hextra, hlit]
    | some extra =>
      simp only [getGeoJson.merged, hextra, Obj.get_assign, Option.bind_some]
      cases hget : Obj.get extra key with
      | none => simp [hlit, hget]
      | some v => simp [hget]
  · intro hnone key field hkey
    have hlit := getGeoJson.get_properties pop key field hkey
    refine ⟨if (field pop).truthy then field pop else str "", ?_, ?_, ?_⟩
    · simp [getGeoJson.merged, hnone, hlit]
    · by_cases ht : (field pop).truthy = true
      · rw [if_pos ht]
        intro hv
        rw [hv] at ht
        exact absurd ht (by decide)
      · rw [if_neg ht]
        decide
    · by_cases ht : (field pop).truthy = true
      · rw [if_pos ht]
        intro hv
        rw [hv] at ht
        exact absurd ht (by decide)
      · rw [if_neg ht]
        decide
  · intro extra hextra key v hget
    simp [getGeoJson.merged, hextra, Obj.get_assign, hget]

/-- C3, amended, at the record `{building:{lng:1,lat:2}, name:'A', uuid:0}`:
the hypotheses hold, its feature is returned, and the `id` of that feature is
the empty string. -/
theorem getGeoJson_named_properties_witness :
    (∀ pop ∈ [Pop.zeroId],
      pop.building.lng.truthy = true → pop.building.lat.truthy = true →
        isNumber pop.building.lng = true ∧ isNumber pop.building.lat = true) ∧
    Pop.zeroId ∈ [Pop.zeroId] ∧
    Pop.zeroId.building.lng.truthy = true ∧
    Pop.zeroId.building.lat.truthy = true ∧
    ∃ fc f, getGeoJson [Pop.zeroId] = .ok fc ∧ f ∈ fc.features ∧
      getGeoJson.toPoint Pop.zeroId = .ok f ∧
      f.properties.get "id" = some (str "") := by
  obtain ⟨fc, f, hfc, hf, htp, -, hnamed, -, -⟩ :=
    getGeoJson_named_properties [Pop.zeroId] (by decide) Pop.zeroId (by decide) (by decide)
      (by decide)
  have hid := hnamed "id" (fun pop => pop.uuid) (by simp [getGeoJson.namedFields])
  exact ⟨by decide, by decide, by decide, by decide, fc, f, hfc, hf, htp, hid⟩

/-- C10, as stated, fails on the record `{building:{lng:1,lat:2}, name:'A'}`: it
survives the filter and carries no `additionalProperties`, and the property bag
of the feature `getGeoJson` returns for it has the 12 keys of the object
literal, not 11. -/
theorem getGeoJson_eleven_fields_counterexample :
    ((Pop.at 1 2 "A").building.lng.and (Pop.at 1 2 "A").building.lat).truthy = true ∧
    (Pop.at 1 2 "A").additionalProperties = none ∧
    ∃ fc, getGeoJson [Pop.at 1 2 "A"] = .ok fc ∧
      fc.features.map (fun f => f.properties.keys) =
        [["address", "building_name", "city", "country_name", "id", "name", "permalink",
          "slug", "state", "suite", "url", "zip_code"]] ∧
      fc.features.map (fun f => f.properties.keys.length) = [12] ∧
      ¬ (∀ f ∈ fc.features, f.properties.keys.length = 11) :=
  ⟨by decide, rfl, _, rfl, by decide, by decide, by decide⟩

/-- C10, amended: for every pop record that survives the coordinate filter and
carries no `additionalProperties`, in an array for which `getGeoJson` returns
(every surviving record has numeric coordinates), the property bag of its
feature has exactly 12 named fields: `address`, `building_name`, `city`,
`country_name`, `id`, `name`, `permalink`, `slug`, `state`, `suite`, `url`,
`zip_code`. -/
theorem getGeoJson_twelve_fields (pops : List Pop)
    (hnum : ∀ pop ∈ pops, pop.building.lng.truthy = true → pop.building.lat.truthy = true →
      isNumber pop.building.lng = true ∧ isNumber pop.building.lat = true)
    (pop : Pop) (hmem : pop ∈ pops)
    (hlng : pop.building.lng.truthy = true) (hlat : pop.building.lat.truthy = true)
    (hnone : pop.additionalProperties = none) :
    ∃ fc f, getGeoJson pops = .ok fc ∧ f ∈ fc.features ∧
      getGeoJson.toPoint pop = .ok f ∧
      f.geometry.coordinates = (pop.building.lng, pop.building.lat) ∧
      f.properties.keys =
        ["address", "building_name", "city", "country_name", "id", "name", "permalink",
          "slug", "state", "suite", "url", "zip_code"] ∧
      f.properties.keys.length = 12 ∧
      f.properties.length = 12 := by
  obtain ⟨fc, f, hfc, hf, htp, rfl⟩ :=
    getGeoJson.feature_of_pop pops hnum pop hmem hlng hlat
  have hkeys : Obj.keys (getGeoJson.merged pop) =
      ["address", "building_name", "city", "country_name", "id", "name", "permalink",
        "slug", "state", "suite", "url", "zip_code"] := by
    simp only [getGeoJson.merged, hnone, Obj.keys, getGeoJson.properties, List.map]
    decide
  refine ⟨fc, _, hfc, hf, htp, rfl, hkeys, by rw [hkeys]; rfl, ?_⟩
  simp [getGeoJson.merged, hnone, getGeoJson.properties]

/-- C10, amended, at the record `{building:{lng:1,lat:2}, name:'A'}`: the
hypotheses hold and the feature returned for it has 12 properties. -/
theorem getGeoJson_twelve_fields_witness :
    (∀ pop ∈ [Pop.at 1 2 "A"],
      pop.building.lng.truthy = true → pop.building.lat.truthy = true →
        isNumber pop.building.lng = true ∧ isNumber pop.building.lat = true) ∧
    Pop.at 1 2 "A" ∈ [Pop.at 1 2 "A"] ∧
    (Pop.at 1 2 "A").building.lng.truthy = true ∧
    (Pop.at 1 2 "A").building.lat.truthy = true ∧
    (Pop.at 1 2 "A").additionalProperties = none ∧
    ∃ fc f, getGeoJson [Pop.at 1 2 "A"] = .ok fc ∧ f ∈ fc.features ∧
      f.properties.length = 12 := by
  obtain ⟨fc, f, hfc, hf, -, -, -, -, hlen⟩ :=
    getGeoJson_twelve_fields [Pop.at 1 2 "A"] (by decide) (Pop.at 1 2 "A") (by decide)
      (by decide) (by decide) rfl
  exact ⟨by decide, by decide, by decide, by decide, rfl, fc, f, hfc, hf, hlen⟩

/-- The text `join` builds is the texts of the parts, one after another. -/
theorem join_data (parts : List String) :
    (join parts).data = parts.flatMap String.data := by
  have h : ∀ (acc : String), (parts.foldl (fun acc part => acc ++ part) acc).data =
      acc.data ++ parts.flatMap String.data := by
    induction parts with
    | nil => intro acc; simp
    | cons part parts ih =>
      intro acc
      rw [List.foldl_cons, ih, String.data_append, List.flatMap_cons, List.append_assoc]
  simpa [join] using h ""

/-- C6: for every feature list in which at least two features have the address
of the first feature, `getPopupMarkup` returns (without raising) a container
whose content is one linked row per feature with the first feature's address,
the texts of the rows one after another, the rows in non-decreasing order of
`properties.name` (compared by code units, so case-sensitively), followed by
one address block, `getAddressMarkup` of the first such feature with the suite
omitted; two features sharing an address, with different names, give two rows,
the one with the smaller name first. -/
theorem getPopupMarkup_shared_address (features : List PopupFeature) (token : String)
    (first : PopupFeature) (hfirst : features.head? = some first)
    (hmany : 2 ≤ (features.filter
      (fun f => decide (f.properties.address = first.properties.address))).length) :
    ∃ (ordered : List PopupFeature) (rows : String),
      getPopupMarkup features token =
        .ok { className := "inflect-map-popup"
              innerHTML := "\n      <div>\n        " ++ rows
                ++ "\n        " ++ getAddressMarkup first.properties false
                ++ "\n      </div>\n    " } ∧
      rows.data = ordered.flatMap (fun f =>
        ("<div class=\"inflect-map-popup-row\">\n            <a href=\"" ++ f.properties.url
          ++ "?mapToken=" ++ token ++ "\" target=\"_blank\">" ++ f.properties.name
          ++ "</a>\n            <p>" ++ f.properties.suite
          ++ "</p>\n          </div>").data) ∧
      ordered.Perm (features.filter
        (fun f => decide (f.properties.address = first.properties.address))) ∧
      ordered.Pairwise (fun a b => strGt a.properties.name b.properties.name = false) ∧
      (features.filter
        (fun f => decide (f.properties.address = first.properties.address))).head? =
        some first ∧
      getAddressMarkup first.properties false =
        "<p>" ++ first.properties.building_name ++ "</p>\n  <p>" ++ first.properties.address
          ++ "</p>\n  <p>" ++ "" ++ "</p>\n  <p>" ++ first.properties.city ++ ", "
          ++ first.properties.state ++ " " ++ first.properties.zip_code ++ "</p>\n  <p>"
          ++ first.properties.country_name ++ "</p>" ∧
      (∀ a b, features = [a, b] → a.properties.name ≠ b.properties.name →
        ordered = if strGt a.properties.name b.properties.name then [b, a] else [a, b]) := by
  cases features with
  | nil => cases hfirst
  | cons f0 rest =>
    simp only [List.head?_cons, Option.some.injEq] at hfirst
    subst hfirst
    have hne : ¬ ((f0 :: rest).filter
        (fun f => decide (f.properties.address = f0.properties.address))).length = 1 := by
      omega
    obtain ⟨hperm, hsorted⟩ := getPopupMarkup.sort_compare ((f0 :: rest).filter
      (fun f => decide (f.properties.address = f0.properties.address)))
    refine ⟨sort getPopupMarkup.compare ((f0 :: rest).filter
        (fun f => decide (f.properties.address = f0.properties.address))),
      join ((sort getPopupMarkup.compare ((f0 :: rest).filter
        (fun f => decide (f.properties.address = f0.properties.address)))).map
        (getPopupMarkup.row token)),
      ?_, ?_, hperm, hsorted, by simp, ?_, ?_⟩
    · rw [getPopupMarkup_cons, if_neg hne]
    · rw [join_data, List.flatMap_map]
      have hrow : (fun f => (getPopupMarkup.row token f).data) = fun f =>
          ("<div class=\"inflect-map-popup-row\">\n            <a href=\"" ++ f.properties.url
            ++ "?mapToken=" ++ token ++ "\" target=\"_blank\">" ++ f.properties.name
            ++ "</a>\n            <p>" ++ f.properties.suite
            ++ "</p>\n          </div>").data :=
        funext (fun f => congrArg String.data (getPopupMarkup.row_eq token f))
      rw [hrow]
    · rw [getAddressMarkup_eq]
      rfl
    · intro a b hab _
      simp only [List.cons.injEq] at hab
      obtain ⟨rfl, rfl⟩ := hab
      have hb : b.properties.address = f0.properties.address := by
        by_contra hb
        simp [hb] at hmany
      have hfilter : [f0, b].filter
          (fun f => decide (f.properties.address = f0.properties.address)) = [f0, b] := by
        simp [hb]
      rw [hfilter]
      simp only [sort, List.insertionSort, List.orderedInsert, getPopupMarkup.compare_le]
      cases strGt f0.properties.name b.properties.name <;> simp

/-- C6 at two occupants of one address, `Zeta Co` listed before `Acme Inc`:
the hypotheses hold, and the content is the row of `Acme Inc`, the row of
`Zeta Co` and one address block without a suite. -/
theorem getPopupMarkup_shared_address_witness :
    [PopupFeature.occupant "Zeta Co" "Suite 9" "https://z.example",
      PopupFeature.occupant "Acme Inc" "Suite 2" "https://a.example"].head? =
      some (PopupFeature.occupant "Zeta Co" "Suite 9" "https://z.example") ∧
    2 ≤ ([PopupFeature.occupant "Zeta Co" "Suite 9" "https://z.example",
      PopupFeature.occupant "Acme Inc" "Suite 2" "https://a.example"].filter
      (fun f => decide (f.properties.address =
        (PopupFeature.occupant "Zeta Co" "Suite 9" "https://z.example").properties.address))).length ∧
    getPopupMarkup
      [PopupFeature.occupant "Zeta Co" "Suite 9" "https://z.example",
        PopupFeature.occupant "Acme Inc" "Suite 2" "https://a.example"] "tok" =
      .ok { className := "inflect-map-popup"
            innerHTML := "\n      <div>\n        <div class=\"inflect-map-popup-row\">\n            <a href=\"https://a.example?mapToken=tok\" target=\"_blank\">Acme Inc</a>\n            <p>Suite 2</p>\n          </div><div class=\"inflect-map-popup-row\">\n            <a href=\"https://z.example?mapToken=tok\" target=\"_blank\">Zeta Co</a>\n            <p>Suite 9</p>\n          </div>\n        <p>Tower</p>\n  <p>1 Main St</p>\n  <p></p>\n  <p>Springfield, IL 62701</p>\n  <p>USA</p>\n      </div>\n    " } := by
  obtain ⟨ordered, rows, hmarkup, hrows, -, -, -, haddress, htwo⟩ :=
    getPopupMarkup_shared_address
      [PopupFeature.occupant "Zeta Co" "Suite 9" "https://z.example",
        PopupFeature.occupant "Acme Inc" "Suite 2" "https://a.example"] "tok"
      (PopupFeature.occupant "Zeta Co" "Suite 9" "https://z.example") rfl (by decide)
  have hordered := htwo _ _ rfl (by decide)
  rw [if_pos (by decide)] at hordered
  subst hordered
  have hrows' : rows = "<div class=\"inflect-map-popup-row\">\n            <a href=\"https://a.example?mapToken=tok\" target=\"_blank\">Acme Inc</a>\n            <p>Suite 2</p>\n          </div><div class=\"inflect-map-popup-row\">\n            <a href=\"https://z.example?mapToken=tok\" target=\"_blank\">Zeta Co</a>\n            <p>Suite 9</p>\n          </div>" :=
    String.ext (hrows.trans rfl)
  rw [hrows', haddress] at hmarkup
  exact ⟨rfl, by decide, hmarkup.trans rfl⟩

/-- The number test of `point` on sample values: numbers, booleans and strings
that read as a number pass; `undefined`, `null`, `NaN`, plain objects and other
strings do not. -/
theorem isNumber_samples :
    [num 3, num 0, bool true, bool false, str "1.5", str " 12 ", str "", str "5.", str ".5",
      str "1e5", str "-1", str "+.5", str "0x1F", str "0b101", str "0o17",
      str "Infinity", str "-Infinity"].map isNumber =
      List.replicate 17 true ∧
    [undefined, null, nan, obj 0, str "abc", str "def", str ".", str "1e", str "e5",
      str "--1", str "0x", str "-0x10", str "0b2", str "infinity", str "1_000", str "1 2",
      str "12px", str "+"].map isNumber =
      List.replicate 18 false := by
  constructor <;> decide

/-- The operator `>` on sample strings: upper case sorts before lower case, a
proper prefix before its extensions, and a character outside the basic plane
(compared by its surrogates) before one at the end of the basic plane. -/
theorem strGt_samples :
    strGt "b" "a" = true ∧ strGt "a" "b" = false ∧ strGt "a" "a" = false ∧
    strGt "a" "B" = true ∧ strGt "B" "a" = false ∧
    strGt "ab" "a" = true ∧ strGt "a" "ab" = false ∧
    strGt "～" "😀" = true ∧ strGt "😀" "～" = false := by
  decide

end InflectMap
